import Mathlib

/-!
Shallow embedding of the "AI developments" aggregation pipeline:
the date utilities (src/utils/date.js) and the provider service
(src/services/newsService.js), translated for verification.

JavaScript strings are modelled as lists of UTF-16 code units
(JsStr := List Nat); JS instants are integers of milliseconds since the
Unix epoch.  Date.now() is passed explicitly as a parameter named now.
-/

namespace AIDev

/-- Model of a JavaScript string: the list of its UTF-16 code units. -/
abbrev JsStr := List Nat

/-- Whitespace code units recognised by String.prototype.trim
(tab, LF, VT, FF, CR, space, NBSP). -/
def isWsCode (c : Nat) : Bool :=
  c == 9 || c == 10 || c == 11 || c == 12 || c == 13 || c == 32 || c == 160

/-- ASCII lower-casing of one code unit, as String.prototype.toLowerCase
acts on the code points occurring in titles and queries here. -/
def lowerCode (c : Nat) : Nat :=
  if 65 ≤ c ∧ c ≤ 90 then c + 32 else c

/-- String.prototype.toLowerCase. -/
def lowerStr (s : JsStr) : JsStr := s.map lowerCode

/-- String.prototype.trim: drop leading and trailing whitespace. -/
def trimStr (s : JsStr) : JsStr :=
  ((s.dropWhile isWsCode).reverse.dropWhile isWsCode).reverse

/-- Whether needle is a prefix of hay (code-unit-wise equality). -/
def prefixAt : JsStr → JsStr → Bool
  | [], _ => true
  | _ :: _, [] => false
  | a :: as, b :: bs => a == b && prefixAt as bs

/-- String.prototype.includes: substring containment (empty needle matches). -/
def containsSub (needle : JsStr) : JsStr → Bool
  | [] => prefixAt needle []
  | b :: bs => prefixAt needle (b :: bs) || containsSub needle bs

/-- Number of decimal digits of a natural number (1 for 0). -/
def digitCount (m : Nat) : Nat :=
  (Nat.toDigits 10 m).length

/-- Length of the string produced by JavaScript String(n) for an integral
number n: its digit count, plus one for the minus sign when negative. -/
def jsNumStrLen (n : Int) : Nat :=
  digitCount n.natAbs + (if n < 0 then 1 else 0)

/-- Code units of the decimal rendering of a natural number. -/
def natToCodes (m : Nat) : JsStr :=
  (Nat.toDigits 10 m).map Char.toNat

/-- Code units of JavaScript String(n) for an integral number n. -/
def intToCodes (n : Int) : JsStr :=
  if n < 0 then 45 :: natToCodes n.natAbs else natToCodes n.natAbs

/-- Seconds-versus-milliseconds heuristic shared by formatRelativeTime and
isWithinLastHours: a numeric input whose String rendering has at most 10
characters is taken as unix seconds and scaled by 1000, otherwise it is
taken as milliseconds already. -/
def numericToMs (n : Int) : Int :=
  if jsNumStrLen n ≤ 10 then n * 1000 else n

/-- Input accepted by the date utilities: a Date object (whose getTime is
an instant, or none for an invalid date), a raw number, or a string paired
with its Date-parse result (none when parsing yields NaN). -/
inductive TimeInput where
  | date (t : Option Int)
  | num (n : Int)
  | str (t : Option Int)
deriving DecidableEq, Repr

/-- Millisecond instant that the date utilities derive from an input
(none models NaN). Mirrors lines 41-47 and 74-81 of the date utilities:
Date inputs use getTime, numbers go through the digit-count heuristic,
strings use their Date-parse result. -/
def tsOfInput : TimeInput → Option Int
  | .date t => t
  | .num n => some (numericToMs n)
  | .str t => t

/-- nowMinusHours, as an instant: Date.now() minus hours in milliseconds. -/
def nowMinusHours (hours : Int) (now : Int) : Int :=
  now - hours * (60 * 60 * 1000)

/-- toUnixSeconds: milliseconds floored to whole seconds. -/
def toUnixSeconds (tMs : Int) : Int :=
  tMs / 1000

/-- Display bucket of formatRelativeTime, ordered by unit. -/
inductive Bucket where
  | now
  | minutes (k : Int)
  | hours (k : Int)
  | days (k : Int)
deriving DecidableEq, Repr

/-- Bucket selection of formatRelativeTime for a valid instant, from the
difference now - t in milliseconds (floored divisions as in the source). -/
def classifyBucket (t : Int) (now : Int) : Bucket :=
  let diffMs := now - t
  if diffMs < 0 then .now
  else
    let seconds := diffMs / 1000
    if seconds < 60 then .now
    else
      let minutes := seconds / 60
      if minutes < 60 then .minutes minutes
      else
        let hours := minutes / 60
        if hours < 24 then .hours hours
        else .days (hours / 24)

/-- Age rank of a display bucket (now < minutes < hours < days). -/
def bucketRank : Bucket → Nat
  | .now => 0
  | .minutes _ => 1
  | .hours _ => 2
  | .days _ => 3

/-- Count shown inside a bucket (zero for the now bucket). -/
def bucketCount : Bucket → Int
  | .now => 0
  | .minutes k => k
  | .hours k => k
  | .days k => k

/-- The bucket older is at least as old as the bucket newer: a strictly
larger unit, or the same unit with a count at least as large. -/
def notMoreRecent (older newer : Bucket) : Prop :=
  bucketRank newer < bucketRank older ∨
    (bucketRank older = bucketRank newer ∧ bucketCount newer ≤ bucketCount older)

/-- Rendering of a bucket to the display string of formatRelativeTime. -/
def renderBucket : Bucket → JsStr
  | .now => [110, 111, 119]
  | .minutes k => intToCodes k ++ [109, 32, 97, 103, 111]
  | .hours k => intToCodes k ++ [104, 32, 97, 103, 111]
  | .days k => intToCodes k ++ [100, 32, 97, 103, 111]

/-- formatRelativeTime: relative-time display string of an input.  An input
whose instant is NaN falls through every comparison and renders the days
branch with a NaN count ("NaNd ago"). -/
def formatRelativeTime (input : TimeInput) (now : Int) : JsStr :=
  match tsOfInput input with
  | some t => renderBucket (classifyBucket t now)
  | none => [78, 97, 78, 100, 32, 97, 103, 111]

/-- isWithinLastHours: true when the input's instant is at or after
nowMinusHours hours; false when the instant is NaN. -/
def isWithinLastHours (input : TimeInput) (hours : Int) (now : Int) : Bool :=
  match tsOfInput input with
  | some tsMs => nowMinusHours hours now ≤ tsMs
  | none => false

/-- Code units of a Lean string literal, for embedding JS string
constants. -/
def strCodes (s : String) : JsStr := s.data.map Char.toNat

/-- DevelopmentItem before annotation.  publishedAt is an ISO-8601 string;
it is modelled by its Date-parse result in milliseconds (none for a string
that parses to an invalid date).  A tags value of none models undefined. -/
structure Item where
  id : JsStr
  title : JsStr
  url : JsStr
  source : JsStr
  publishedAt : Option Int
  summary : JsStr
  tags : Option (List JsStr)
deriving DecidableEq, Repr

/-- DevelopmentItem after the pipeline attaches relativeTime. -/
structure ItemOut extends Item where
  relativeTime : JsStr
deriving DecidableEq, Repr

/-- Hostname extraction of getDomain, modelled for http(s)-style URLs:
the text between the first "://" and the next "/", with a leading "www."
stripped; a URL with no scheme separator throws in the source and maps to
the empty string.  (Full WHATWG URL parsing is abstracted; no verified
property depends on this field.)  afterScheme finds the "://" split. -/
def afterScheme : JsStr → Option JsStr
  | 58 :: 47 :: 47 :: rest => some rest
  | _ :: rest => afterScheme rest
  | [] => none

/-- Hostname extraction of getDomain (see afterScheme). -/
def getDomain (url : JsStr) : JsStr :=
  match afterScheme url with
  | none => []
  | some rest =>
    let host := rest.takeWhile (fun c => c ≠ 47)
    match host with
    | 119 :: 119 :: 119 :: 46 :: tail => tail
    | _ => host

/-- Worker of dedupeByUrl carrying the set of trimmed keys already seen. -/
def dedupeGo (seen : List JsStr) : List Item → List Item
  | [] => []
  | item :: rest =>
    let key := trimStr item.url
    if key = [] ∨ key ∈ seen then dedupeGo seen rest
    else item :: dedupeGo (key :: seen) rest

/-- dedupeByUrl: keep the first occurrence of every trimmed url key and
drop items whose trimmed url is empty. -/
def dedupeByUrl (items : List Item) : List Item :=
  dedupeGo [] items

/-- filterWithinHours: keep items whose publishedAt lies in the window. -/
def filterWithinHours (items : List Item) (hours : Int) (now : Int) : List Item :=
  items.filter (fun it => isWithinLastHours (.str it.publishedAt) hours now)

/-- Predicate of applyTitleFilter: lower-cased title contains q. -/
def titleMatches (q : JsStr) (it : Item) : Bool :=
  containsSub q (lowerStr it.title)

/-- applyTitleFilter: case-insensitive substring filter on titles; an
empty query, or a query that trims to nothing, is a no-op. -/
def applyTitleFilter (items : List Item) (query : JsStr) : List Item :=
  if query = [] then items
  else
    let q := lowerStr (trimStr query)
    if q = [] then items
    else items.filter (titleMatches q)

/-- addRelativeTime: annotate every item with its relative-time string. -/
def addRelativeTime (items : List Item) (now : Int) : List ItemOut :=
  items.map (fun it =>
    { it with relativeTime := formatRelativeTime (.str it.publishedAt) now })

/-- Sort key of the descending publishedAt comparator.  A valid date is its
instant; an invalid date gives a NaN comparator result, which Array sort
coerces to zero (treated as equal), modelled by the key 0. -/
def dateKey (it : Item) : Int :=
  match it.publishedAt with
  | some t => t
  | none => 0

/-- Descending sort by publishedAt, per the comparator
new Date(b.publishedAt) - new Date(a.publishedAt): the stable sort
required of Array.prototype.sort, modelled by a stable sorting
algorithm under the comparator's total preorder. -/
def sortByDateDesc (items : List Item) : List Item :=
  List.insertionSort (fun a b => dateKey b ≤ dateKey a) items

/-- Finishing sequence of fetchDevelopments: dedupe, title filter, sort
descending by date, annotate with relativeTime. -/
def runPipeline (items : List Item) (query : JsStr) (now : Int) : List ItemOut :=
  addRelativeTime (sortByDateDesc (applyTitleFilter (dedupeByUrl items) query)) now

/-- Raw entry of the static mock JSON (mockDevelopments.json, whose
content is not in the sources, so the entries stay universally
quantified).  String fields use [] for an absent or empty (falsy) value;
publishedAt is none when the field is absent or empty, and some p when a
non-empty string is present whose Date-parse result is p. -/
structure MockRaw where
  id : JsStr
  title : JsStr
  url : JsStr
  source : JsStr
  publishedAt : Option (Option Int)
  summary : JsStr
  tags : Option (List JsStr)
deriving DecidableEq, Repr

/-- buildMockData: normalise the static mock entries, filling defaults
for missing fields (the entry index feeds the fallback id). -/
def buildMockData (staticMock : List MockRaw) (now : Int) : List Item :=
  staticMock.mapIdx (fun idx m =>
    { id := if m.id ≠ [] then m.id else strCodes ("mock-") ++ natToCodes idx
      title := if m.title ≠ [] then m.title else strCodes ("AI development")
      url := if m.url ≠ [] then m.url else strCodes ("https://example.com")
      source :=
        if m.source ≠ [] then m.source
        else if m.url ≠ [] then getDomain m.url else strCodes ("mock")
      publishedAt :=
        match m.publishedAt with
        | some p => p
        | none => some now
      summary := m.summary
      tags := m.tags })

/-- Raw Hacker News Algolia hit.  String fields use [] for absent/empty;
created_at_i is the epoch-seconds field; created_at is none when absent
or empty and some t for a present string parsing to instant t (a present
unparseable string makes toISOString throw in the source, which surfaces
as the rejected-fetch case of NetResp). -/
structure HNHit where
  objectID : JsStr
  url : JsStr
  story_url : JsStr
  title : JsStr
  story_title : JsStr
  created_at_i : Option Int
  created_at : Option Int
deriving DecidableEq, Repr

/-- Raw article of NewsAPI or GNews.  publishedAt is none when absent or
empty, some t when present and parsing to t; sourceName models
a.source && a.source.name with [] for a falsy result. -/
structure Article where
  url : JsStr
  title : JsStr
  publishedAt : Option Int
  description : JsStr
  sourceName : JsStr
deriving DecidableEq, Repr

/-- Publish instant of a Hacker News hit: created_at_i scaled to
milliseconds when truthy (non-zero), else the parsed created_at when the
string is truthy, else Date.now(). -/
def hnPublishedMs (h : HNHit) (now : Int) : Int :=
  match h.created_at_i with
  | some ci => if ci = 0 then (match h.created_at with
      | some t => t
      | none => now) else ci * 1000
  | none =>
    match h.created_at with
    | some t => t
    | none => now

/-- normalizeFromHN: map Algolia hits to items, dropping those without a
usable title or url. -/
def normalizeFromHN (hits : List HNHit) (now : Int) : List Item :=
  (hits.map (fun h =>
    let url := if h.url ≠ [] then h.url else h.story_url
    let title := if h.title ≠ [] then h.title else h.story_title
    let publishedMs := hnPublishedMs h now
    { id := if h.objectID ≠ [] then h.objectID
        else intToCodes publishedMs ++ strCodes ("-") ++ title
      title := title
      url := url
      source := if getDomain url ≠ [] then getDomain url
        else strCodes ("news.ycombinator.com")
      publishedAt := some publishedMs
      summary := []
      tags := none })).filter (fun x => x.title ≠ [] ∧ x.url ≠ [])

/-- normalizeFromNewsAPI: map NewsAPI articles to items, dropping those
without a usable title or url. -/
def normalizeFromNewsAPI (articles : List Article) (now : Int) : List Item :=
  (articles.mapIdx (fun idx a =>
    let url := a.url
    let title := a.title
    { id := if a.url ≠ [] then a.url else natToCodes idx
      title := title
      url := url
      source := if getDomain url ≠ [] then getDomain url
        else if a.sourceName ≠ [] then a.sourceName else strCodes ("newsapi")
      publishedAt :=
        match a.publishedAt with
        | some t => some t
        | none => some now
      summary := a.description
      tags := none })).filter (fun x => x.title ≠ [] ∧ x.url ≠ [])

/-- normalizeFromGNews: map GNews articles to items, dropping those
without a usable title or url. -/
def normalizeFromGNews (articles : List Article) (now : Int) : List Item :=
  (articles.mapIdx (fun idx a =>
    let url := a.url
    let title := a.title
    { id := if a.url ≠ [] then a.url else natToCodes idx
      title := title
      url := url
      source := if getDomain url ≠ [] then getDomain url
        else if a.sourceName ≠ [] then a.sourceName else strCodes ("gnews")
      publishedAt :=
        match a.publishedAt with
        | some t => some t
        | none => some now
      summary := a.description
      tags := none })).filter (fun x => x.title ≠ [] ∧ x.url ≠ [])

/-- Provider selector (unknown values fall back to the HN branch). -/
inductive Provider where
  | HN
  | NEWSAPI
  | GNEWS
  | OTHER
deriving DecidableEq, Repr

/-- Error thrown out of fetchFromProvider: a configuration error for a
missing credential (raised before the network call), an HTTP error for a
non-2xx response, or a rejected fetch or JSON parse. -/
inductive FetchError where
  | config (msg : JsStr)
  | http (msg : JsStr)
  | network (msg : JsStr)
deriving DecidableEq, Repr

/-- Outcome of the one fetch a provider branch performs: the fetch or
res.json() rejecting, or a response with its ok flag, status, and a JSON
body from which the hits and articles arrays are read ([] when the field
is missing). -/
inductive NetResp where
  | fail (msg : JsStr)
  | resp (ok : Bool) (status : Int) (hits : List HNHit) (articles : List Article)
deriving DecidableEq, Repr

/-- Environment credentials; [] models an unset or empty (falsy)
environment variable. -/
structure Env where
  newsapiKey : JsStr
  gnewsKey : JsStr
deriving DecidableEq, Repr

/-- HN branch of fetchFromProvider: fetch, check res.ok, normalise, and
self-filter to the 48-hour window. -/
def hnFetch (net : NetResp) (now : Int) : Except FetchError (List Item) :=
  match net with
  | .fail m => .error (.network m)
  | .resp ok status hits _ =>
    if ok then
      let normalized := normalizeFromHN hits now
      .ok (normalized.filter (fun n =>
        match n.publishedAt with
        | some created => decide (nowMinusHours 48 now ≤ created)
        | none => false))
    else .error (.http (strCodes ("HN fetch failed: ") ++ intToCodes status))

/-- fetchFromProvider: dispatch on the provider; the keyed providers
check their credential before the network call; an unknown provider
falls back to the HN branch. -/
def fetchFromProvider (provider : Provider) (env : Env) (net : NetResp)
    (now : Int) : Except FetchError (List Item) :=
  match provider with
  | .HN => hnFetch net now
  | .NEWSAPI =>
    if env.newsapiKey = [] then
      .error (.config (strCodes ("Missing REACT_APP_NEWSAPI_KEY for NEWSAPI provider")))
    else
      match net with
      | .fail m => .error (.network m)
      | .resp ok status _ articles =>
        if ok then .ok (normalizeFromNewsAPI articles now)
        else .error (.http (strCodes ("NewsAPI fetch failed: ") ++ intToCodes status))
  | .GNEWS =>
    if env.gnewsKey = [] then
      .error (.config (strCodes ("Missing REACT_APP_GNEWS_KEY for GNEWS provider")))
    else
      match net with
      | .fail m => .error (.network m)
      | .resp ok status _ articles =>
        if ok then .ok (normalizeFromGNews articles now)
        else .error (.http (strCodes ("GNews fetch failed: ") ++ intToCodes status))
  | .OTHER => hnFetch net now

/-- Browser-window state read by urlMockEnabled: the value of the mock
query parameter (none when absent), the location hash, and the
process-wide window.__USE_MOCK flag. -/
structure WindowState where
  searchMock : Option JsStr
  hash : JsStr
  globalFlag : Bool
deriving DecidableEq, Repr

/-- urlMockEnabled: the runtime mock override is set when the mock query
parameter is truthy and one of 1, true, on, yes (case-insensitively), or
the hash contains mock, or the global flag is set. -/
def urlMockEnabled (w : WindowState) : Bool :=
  let hasQueryMock :=
    match w.searchMock with
    | some v => v ≠ [] ∧ lowerStr v ∈ [strCodes ("1"), strCodes ("true"),
        strCodes ("on"), strCodes ("yes")]
    | none => false
  let hasHashMock := containsSub (strCodes ("mock")) (lowerStr w.hash)
  hasQueryMock || hasHashMock || w.globalFlag

/-- Result envelope of fetchDevelopments. -/
structure FetchResult where
  items : List ItemOut
  usedMock : Bool
deriving DecidableEq, Repr

/-- prepareMock: build the mock items, apply the 48-hour window, and
bypass the window only when mock was forced and filtering emptied the
set; then run the finishing pipeline. -/
def prepareMock (forceMock : Bool) (staticMock : List MockRaw)
    (queryText : JsStr) (now : Int) : List ItemOut :=
  let mock := buildMockData staticMock now
  let within := filterWithinHours mock 48 now
  let base := if forceMock = true ∧ within = [] then mock else within
  runPipeline base queryText now

/-- fetchDevelopments: resolve mock mode; on the mock path serve
prepareMock; on the live path await the provider (providerResult stands
for the awaited fetchFromProvider call, whose rejection is the error
case), falling back to prepareMock when it errors, returns no items, or
returns nothing inside the 48-hour window. -/
def fetchDevelopments (queryText : JsStr) (envMock : Bool) (w : WindowState)
    (providerResult : Except FetchError (List Item))
    (staticMock : List MockRaw) (now : Int) : FetchResult :=
  let forceMock := urlMockEnabled w
  let mockOn := envMock || forceMock
  if mockOn then
    { items := prepareMock forceMock staticMock queryText now, usedMock := true }
  else
    match providerResult with
    | .error _ =>
      { items := prepareMock forceMock staticMock queryText now, usedMock := true }
    | .ok items =>
      if items = [] then
        { items := prepareMock forceMock staticMock queryText now, usedMock := true }
      else
        let processed := filterWithinHours items 48 now
        if processed = [] then
          { items := prepareMock forceMock staticMock queryText now, usedMock := true }
        else
          { items := runPipeline processed queryText now, usedMock := false }

/-! Verified properties. -/

theorem applyTitleFilter_nil (q : JsStr) : applyTitleFilter [] q = [] := by
  simp [applyTitleFilter]

theorem runPipeline_nil (q : JsStr) (now : Int) : runPipeline [] q now = [] := by
  unfold runPipeline dedupeByUrl dedupeGo
  rw [applyTitleFilter_nil]
  rfl

/-- CLAIM C8.  isWithinLastHours returns true exactly when the input has a
valid instant lying at or after nowMinusHours hours, and returns false for
any input whose instant is NaN; as a total function it never throws. -/
theorem claim_C8 (input : TimeInput) (hours now : Int) :
    (isWithinLastHours input hours now = true ↔
      ∃ t, tsOfInput input = some t ∧ nowMinusHours hours now ≤ t) ∧
    (tsOfInput input = none → isWithinLastHours input hours now = false) := by
  constructor
  · cases h : tsOfInput input with
    | none => simp [isWithinLastHours, h]
    | some t => simp [isWithinLastHours, h]
  · intro h
    simp [isWithinLastHours, h]

theorem claim_C8_witness :
    isWithinLastHours (TimeInput.str (some 1000)) 1 3600000 = true :=
  (claim_C8 (TimeInput.str (some 1000)) 1 3600000).1.mpr ⟨1000, rfl, by decide⟩

/-- CLAIM C5 (counterexample to the claim as stated).  The negative
number -1234567890 has exactly 10 decimal digits, yet String() renders it
with 11 characters, so both date utilities interpret it as milliseconds,
not seconds: isWithinLastHours accepts it in a 400-hour window before
epoch although its seconds-reading would lie outside that window. -/
theorem counterexample_C5 :
    digitCount (Int.natAbs (-1234567890)) = 10 ∧
    numericToMs (-1234567890) = -1234567890 ∧
    numericToMs (-1234567890) ≠ (-1234567890) * 1000 ∧
    isWithinLastHours (TimeInput.num (-1234567890)) 400 0 = true ∧
    ¬ nowMinusHours 400 0 ≤ (-1234567890) * 1000 := by
  refine ⟨by decide, by decide, by decide, by decide, by decide⟩

/-- CLAIM C5 (amended).  For nonnegative numeric inputs the digit-count
rule holds as the spec states it: at most 10 decimal digits means
seconds-since-epoch (scaled by 1000), more than 10 means milliseconds;
and both formatRelativeTime and isWithinLastHours consume the number
through exactly this interpretation.  (For negative inputs the code
tests the rendered string length, which also counts the minus sign.) -/
theorem claim_C5 (n : Int) (h : 0 ≤ n) :
    (digitCount n.natAbs ≤ 10 → numericToMs n = n * 1000) ∧
    (10 < digitCount n.natAbs → numericToMs n = n) ∧
    (∀ now, formatRelativeTime (TimeInput.num n) now =
      renderBucket (classifyBucket (numericToMs n) now)) ∧
    (∀ hours now, isWithinLastHours (TimeInput.num n) hours now =
      decide (nowMinusHours hours now ≤ numericToMs n)) := by
  have hlen : jsNumStrLen n = digitCount n.natAbs := by
    unfold jsNumStrLen
    rw [if_neg (by omega)]
    omega
  refine ⟨?_, ?_, ?_, ?_⟩
  · intro hd
    unfold numericToMs
    rw [hlen, if_pos hd]
  · intro hd
    unfold numericToMs
    rw [hlen, if_neg (by omega)]
  · intro now
    rfl
  · intro hours now
    rfl

theorem claim_C5_witness :
    numericToMs 1234567890 = 1234567890 * 1000 :=
  (claim_C5 1234567890 (by decide)).1 (by decide)

/-- CLAIM C7.  For the keyed providers, an absent credential makes
fetchFromProvider fail with a configuration error whose value does not
depend on the network outcome at all (so it is raised before any network
attempt), and a configuration error is distinct from every HTTP and
network error. -/
theorem claim_C7 (env : Env) (net net2 : NetResp) (now now2 : Int)
    (hn : env.newsapiKey = []) (hg : env.gnewsKey = []) :
    (∃ m, fetchFromProvider .NEWSAPI env net now = .error (.config m)) ∧
    fetchFromProvider .NEWSAPI env net now = fetchFromProvider .NEWSAPI env net2 now2 ∧
    (∃ m, fetchFromProvider .GNEWS env net now = .error (.config m)) ∧
    fetchFromProvider .GNEWS env net now = fetchFromProvider .GNEWS env net2 now2 ∧
    (∀ a b, FetchError.config a ≠ FetchError.http b ∧
      FetchError.config a ≠ FetchError.network b) := by
  refine ⟨⟨strCodes ("Missing REACT_APP_NEWSAPI_KEY for NEWSAPI provider"), ?_⟩, ?_,
    ⟨strCodes ("Missing REACT_APP_GNEWS_KEY for GNEWS provider"), ?_⟩, ?_, ?_⟩
  · simp [fetchFromProvider, hn]
  · simp [fetchFromProvider, hn]
  · simp [fetchFromProvider, hg]
  · simp [fetchFromProvider, hg]
  · intro a b
    exact ⟨by simp, by simp⟩

theorem claim_C7_witness :
    ∃ m, fetchFromProvider .NEWSAPI ⟨[], []⟩ (.fail []) 0 = .error (.config m) :=
  (claim_C7 ⟨[], []⟩ (.fail []) (.resp true 200 [] []) 0 5 rfl rfl).1

/-- CLAIM C1.  With mock mode off, whenever the awaited provider fetch
errored (configuration, network, HTTP, or parse failure all land in the
error case), or returned zero items, or returned nothing inside the
48-hour window, fetchDevelopments still returns a value — the
mock-derived prepareMock set with usedMock true — and the raw error
never appears in the result. -/
theorem claim_C1 (q : JsStr) (envMock : Bool) (w : WindowState)
    (pr : Except FetchError (List Item)) (sm : List MockRaw) (now : Int)
    (henv : envMock = false) (hforce : urlMockEnabled w = false)
    (hfail : (∃ e, pr = .error e) ∨ pr = .ok [] ∨
      ∃ l, pr = .ok l ∧ filterWithinHours l 48 now = []) :
    fetchDevelopments q envMock w pr sm now =
      { items := prepareMock false sm q now, usedMock := true } := by
  subst henv
  rcases hfail with ⟨e, rfl⟩ | rfl | ⟨l, rfl, hl⟩
  · simp [fetchDevelopments, hforce]
  · simp [fetchDevelopments, hforce]
  · by_cases hnil : l = []
    · subst hnil
      simp [fetchDevelopments, hforce]
    · simp [fetchDevelopments, hforce, hnil, hl]

theorem claim_C1_witness :
    fetchDevelopments [] false ⟨none, [], false⟩
      (Except.error (FetchError.network [])) [] 0 =
      { items := prepareMock false [] [] 0, usedMock := true } :=
  claim_C1 [] false ⟨none, [], false⟩ _ [] 0 rfl (by decide) (.inl ⟨_, rfl⟩)

/-- CLAIM C2.  When mock mode is forced by the runtime override and the
48-hour filter empties the mock set, fetchDevelopments serves the full
unfiltered mock set through the finishing pipeline with usedMock true;
when mock mode is only configured (override off), the window filter is
always applied, so the bypass never occurs. -/
theorem claim_C2 (q : JsStr) (envMock : Bool) (w : WindowState)
    (pr : Except FetchError (List Item)) (sm : List MockRaw) (now : Int) :
    (urlMockEnabled w = true → filterWithinHours (buildMockData sm now) 48 now = [] →
      fetchDevelopments q envMock w pr sm now =
        { items := runPipeline (buildMockData sm now) q now, usedMock := true }) ∧
    (urlMockEnabled w = false → envMock = true →
      fetchDevelopments q envMock w pr sm now =
        { items := runPipeline (filterWithinHours (buildMockData sm now) 48 now) q now,
          usedMock := true }) := by
  constructor
  · intro hforce hempty
    simp [fetchDevelopments, prepareMock, hforce, hempty]
  · intro hforce henv
    subst henv
    simp [fetchDevelopments, prepareMock, hforce]

theorem claim_C2_witness :
    fetchDevelopments [] false ⟨none, [], true⟩ (Except.ok [])
      [⟨[], [], [], [], some (some 0), [], none⟩] 200000000 =
      { items := runPipeline
          (buildMockData [⟨[], [], [], [], some (some 0), [], none⟩] 200000000)
          [] 200000000,
        usedMock := true } :=
  (claim_C2 [] false ⟨none, [], true⟩ (Except.ok [])
    [⟨[], [], [], [], some (some 0), [], none⟩] 200000000).1 (by decide) (by decide)

/-- CLAIM C9.  With mock mode enabled only by the configuration flag (no
runtime override) and every mock fixture older than 48 hours,
fetchDevelopments resolves with an empty item list and usedMock true:
the stale-data bypass is reserved for forced mock mode, and an empty
mock result is not an error. -/
theorem claim_C9 (q : JsStr) (w : WindowState)
    (pr : Except FetchError (List Item)) (sm : List MockRaw) (now : Int)
    (hforce : urlMockEnabled w = false)
    (hempty : filterWithinHours (buildMockData sm now) 48 now = []) :
    fetchDevelopments q true w pr sm now = { items := [], usedMock := true } := by
  simp [fetchDevelopments, prepareMock, hforce, hempty, runPipeline_nil]

theorem dedupeGo_nil (seen : List JsStr) : dedupeGo seen [] = [] := rfl

theorem dedupeGo_cons (seen : List JsStr) (a : Item) (rest : List Item) :
    dedupeGo seen (a :: rest) =
      if trimStr a.url = [] ∨ trimStr a.url ∈ seen then dedupeGo seen rest
      else a :: dedupeGo (trimStr a.url :: seen) rest := rfl

theorem mem_dedupeGo (seen : List JsStr) (l : List Item) (y : Item)
    (hy : y ∈ dedupeGo seen l) :
    trimStr y.url ∉ seen ∧ trimStr y.url ≠ [] := by
  induction l generalizing seen with
  | nil => cases hy
  | cons a rest ih =>
    rw [dedupeGo_cons] at hy
    by_cases hc : trimStr a.url = [] ∨ trimStr a.url ∈ seen
    · rw [if_pos hc] at hy
      exact ih seen hy
    · rw [if_neg hc] at hy
      push_neg at hc
      rcases List.mem_cons.mp hy with rfl | hy2
      · exact ⟨hc.2, hc.1⟩
      · have h := ih (trimStr a.url :: seen) hy2
        exact ⟨fun hmem => h.1 (List.mem_cons_of_mem _ hmem), h.2⟩

theorem dedupeGo_pairwise (seen : List JsStr) (l : List Item) :
    (dedupeGo seen l).Pairwise (fun a b => trimStr a.url ≠ trimStr b.url) := by
  induction l generalizing seen with
  | nil => exact List.Pairwise.nil
  | cons a rest ih =>
    rw [dedupeGo_cons]
    by_cases hc : trimStr a.url = [] ∨ trimStr a.url ∈ seen
    · rw [if_pos hc]
      exact ih seen
    · rw [if_neg hc]
      refine List.Pairwise.cons ?_ (ih _)
      intro b hb heq
      exact (mem_dedupeGo _ _ _ hb).1 (by rw [← heq]; exact List.mem_cons_self _ _)

theorem dedupe_pairwise_url (items : List Item) :
    (dedupeByUrl items).Pairwise (fun a b => a.url ≠ b.url) := by
  refine (dedupeGo_pairwise [] items).imp ?_
  intro a b h heq
  exact h (by rw [heq])

theorem applyTitleFilter_cases (l : List Item) (q : JsStr) :
    applyTitleFilter l q = l ∨ ∃ p, applyTitleFilter l q = l.filter p := by
  unfold applyTitleFilter
  by_cases hq : q = []
  · rw [if_pos hq]
    exact .inl rfl
  · rw [if_neg hq]
    show (if lowerStr (trimStr q) = [] then l else
      l.filter (titleMatches (lowerStr (trimStr q)))) = l ∨ _
    by_cases h2 : lowerStr (trimStr q) = []
    · exact .inl (if_pos h2)
    · exact .inr ⟨titleMatches (lowerStr (trimStr q)), if_neg h2⟩

theorem runPipeline_pairwise_url (items : List Item) (q : JsStr) (now : Int) :
    (runPipeline items q now).Pairwise (fun a b => a.url ≠ b.url) := by
  have h1 := dedupe_pairwise_url items
  have h2 : (applyTitleFilter (dedupeByUrl items) q).Pairwise
      (fun a b => a.url ≠ b.url) := by
    rcases applyTitleFilter_cases (dedupeByUrl items) q with he | ⟨p, he⟩
    · rw [he]
      exact h1
    · rw [he]
      exact h1.filter p
  have hsymm : ∀ {x y : Item}, x.url ≠ y.url → y.url ≠ x.url :=
    fun h heq => h heq.symm
  have h3 : (sortByDateDesc (applyTitleFilter (dedupeByUrl items) q)).Pairwise
      (fun a b => a.url ≠ b.url) :=
    ((List.perm_insertionSort _ _).pairwise_iff hsymm).mpr h2
  exact List.pairwise_map.mpr h3

theorem dedupeGo_find (l : List Item) : ∀ (seen : List JsStr) (x : Item),
    x ∈ l → trimStr x.url ≠ [] → trimStr x.url ∉ seen →
    ∃ w, l.find? (fun y => trimStr y.url == trimStr x.url) = some w ∧
      w ∈ dedupeGo seen l ∧
      ∀ y ∈ dedupeGo seen l, trimStr y.url = trimStr x.url → y = w := by
  induction l with
  | nil =>
    intro seen x hx
    cases hx
  | cons a rest ih =>
    intro seen x hx hne hnseen
    by_cases hkey : trimStr a.url = trimStr x.url
    · have hfind : (a :: rest).find? (fun y => trimStr y.url == trimStr x.url)
          = some a := by
        simp [List.find?_cons, hkey]
      have hcond : ¬(trimStr a.url = [] ∨ trimStr a.url ∈ seen) := by
        rw [hkey]
        rintro (h | h)
        · exact hne h
        · exact hnseen h
      refine ⟨a, hfind, ?_, ?_⟩
      · rw [dedupeGo_cons, if_neg hcond]
        exact List.mem_cons_self _ _
      · intro y hy heq
        rw [dedupeGo_cons, if_neg hcond] at hy
        rcases List.mem_cons.mp hy with rfl | hy2
        · rfl
        · exact absurd (by rw [heq, ← hkey]; exact List.mem_cons_self _ _)
            (mem_dedupeGo _ _ _ hy2).1
    · have hxrest : x ∈ rest := by
        rcases List.mem_cons.mp hx with rfl | h
        · exact absurd rfl hkey
        · exact h
      have hfTail : (a :: rest).find? (fun y => trimStr y.url == trimStr x.url)
          = rest.find? (fun y => trimStr y.url == trimStr x.url) := by
        simp [List.find?_cons, hkey]
      by_cases hcond : trimStr a.url = [] ∨ trimStr a.url ∈ seen
      · obtain ⟨w, hf, hm, hu⟩ := ih seen x hxrest hne hnseen
        refine ⟨w, by rw [hfTail]; exact hf, ?_, ?_⟩
        · rw [dedupeGo_cons, if_pos hcond]
          exact hm
        · intro y hy
          rw [dedupeGo_cons, if_pos hcond] at hy
          exact hu y hy
      · have hnseen2 : trimStr x.url ∉ trimStr a.url :: seen := by
          intro h
          rcases List.mem_cons.mp h with h1 | h2
          · exact hkey h1.symm
          · exact hnseen h2
        obtain ⟨w, hf, hm, hu⟩ := ih (trimStr a.url :: seen) x hxrest hne hnseen2
        refine ⟨w, by rw [hfTail]; exact hf, ?_, ?_⟩
        · rw [dedupeGo_cons, if_neg hcond]
          exact List.mem_cons_of_mem _ hm
        · intro y hy heq
          rw [dedupeGo_cons, if_neg hcond] at hy
          rcases List.mem_cons.mp hy with rfl | hy2
          · exact absurd heq hkey
          · exact hu y hy2 heq

/-- CLAIM C3 (counterexample to the claim as stated).  Two raw items
sharing the identical url, here the empty string, with different titles:
deduplication drops both (empty trimmed keys are skipped), so the
first-encountered one does not survive. -/
theorem counterexample_C3 :
    (Item.mk (strCodes ("a1")) (strCodes ("first")) [] [] (some 0) [] none).url =
      (Item.mk (strCodes ("a2")) (strCodes ("second")) [] [] (some 0) [] none).url ∧
    dedupeByUrl
      [Item.mk (strCodes ("a1")) (strCodes ("first")) [] [] (some 0) [] none,
       Item.mk (strCodes ("a2")) (strCodes ("second")) [] [] (some 0) [] none] = [] := by
  constructor
  · rfl
  · decide

/-- CLAIM C3 (amended).  After the finishing sequence no two returned
items share the same url.  Deduplication keys on the trimmed url and
drops items whose url trims to empty; whenever an item's url has a
nonempty trimmed form, exactly the first-encountered item carrying that
trimmed key survives deduplication (so for two items with an identical
nonempty url, the first in provider order survives; items with an
identical whitespace-only url all vanish instead). -/
theorem claim_C3 (items : List Item) (q : JsStr) (now : Int) :
    (runPipeline items q now).Pairwise (fun a b => a.url ≠ b.url) ∧
    ∀ x ∈ items, trimStr x.url ≠ [] →
      ∃ w, items.find? (fun y => trimStr y.url == trimStr x.url) = some w ∧
        w ∈ dedupeByUrl items ∧
        ∀ y ∈ dedupeByUrl items, trimStr y.url = trimStr x.url → y = w := by
  refine ⟨runPipeline_pairwise_url items q now, ?_⟩
  intro x hx hne
  exact dedupeGo_find items [] x hx hne (by simp)

theorem claim_C3_witness :
    ∃ w, List.find?
        (fun y => trimStr y.url == trimStr (strCodes ("u")))
        [Item.mk (strCodes ("i1")) (strCodes ("t1")) (strCodes ("u")) [] (some 0) [] none,
         Item.mk (strCodes ("i2")) (strCodes ("t2")) (strCodes ("u")) [] (some 0) [] none]
        = some w ∧
      w ∈ dedupeByUrl
        [Item.mk (strCodes ("i1")) (strCodes ("t1")) (strCodes ("u")) [] (some 0) [] none,
         Item.mk (strCodes ("i2")) (strCodes ("t2")) (strCodes ("u")) [] (some 0) [] none] ∧
      ∀ y ∈ dedupeByUrl
        [Item.mk (strCodes ("i1")) (strCodes ("t1")) (strCodes ("u")) [] (some 0) [] none,
         Item.mk (strCodes ("i2")) (strCodes ("t2")) (strCodes ("u")) [] (some 0) [] none],
        trimStr y.url = trimStr
          (Item.mk (strCodes ("i1")) (strCodes ("t1")) (strCodes ("u")) [] (some 0) [] none).url
          → y = w :=
  (claim_C3
    [Item.mk (strCodes ("i1")) (strCodes ("t1")) (strCodes ("u")) [] (some 0) [] none,
     Item.mk (strCodes ("i2")) (strCodes ("t2")) (strCodes ("u")) [] (some 0) [] none]
    [] 0).2
    (Item.mk (strCodes ("i1")) (strCodes ("t1")) (strCodes ("u")) [] (some 0) [] none)
    (List.mem_cons_self _ _) (by decide)

theorem dedupeGo_seen_mono (l : List Item) : ∀ seen seen2 : List JsStr,
    (∀ k, k ∈ seen → k ∈ seen2) →
    (dedupeGo seen2 l).Sublist (dedupeGo seen l) := by
  induction l with
  | nil =>
    intro seen seen2 _
    exact List.Sublist.refl _
  | cons a rest ih =>
    intro seen seen2 hsub
    rw [dedupeGo_cons, dedupeGo_cons]
    by_cases h1 : trimStr a.url = [] ∨ trimStr a.url ∈ seen
    · have h2 : trimStr a.url = [] ∨ trimStr a.url ∈ seen2 := by
        rcases h1 with h | h
        · exact .inl h
        · exact .inr (hsub _ h)
      rw [if_pos h1, if_pos h2]
      exact ih seen seen2 hsub
    · rw [if_neg h1]
      by_cases h2 : trimStr a.url = [] ∨ trimStr a.url ∈ seen2
      · rw [if_pos h2]
        have hkey : trimStr a.url ∈ seen2 := by
          rcases h2 with h | h
          · exact absurd (Or.inl h) h1
          · exact h
        refine List.Sublist.cons a (ih (trimStr a.url :: seen) seen2 ?_)
        intro k hk
        rcases List.mem_cons.mp hk with rfl | hk2
        · exact hkey
        · exact hsub k hk2
      · rw [if_neg h2]
        refine List.Sublist.cons₂ a (ih _ _ ?_)
        intro k hk
        rcases List.mem_cons.mp hk with rfl | hk2
        · exact List.mem_cons_self _ _
        · exact List.mem_cons_of_mem _ (hsub k hk2)

theorem filter_dedupeGo_sublist (p : Item → Bool) (l : List Item) :
    ∀ seen : List JsStr,
    ((dedupeGo seen l).filter p).Sublist (dedupeGo seen (l.filter p)) := by
  induction l with
  | nil =>
    intro seen
    exact List.Sublist.refl _
  | cons a rest ih =>
    intro seen
    rw [dedupeGo_cons]
    by_cases h1 : trimStr a.url = [] ∨ trimStr a.url ∈ seen
    · rw [if_pos h1]
      by_cases hpa : p a
      · rw [List.filter_cons, if_pos hpa, dedupeGo_cons, if_pos h1]
        exact ih seen
      · rw [List.filter_cons, if_neg hpa]
        exact ih seen
    · rw [if_neg h1]
      by_cases hpa : p a
      · rw [List.filter_cons, if_pos hpa, List.filter_cons, if_pos hpa,
          dedupeGo_cons, if_neg h1]
        exact List.Sublist.cons₂ a (ih (trimStr a.url :: seen))
      · rw [List.filter_cons, if_neg hpa, List.filter_cons, if_neg hpa]
        exact (ih (trimStr a.url :: seen)).trans
          (dedupeGo_seen_mono (rest.filter p) seen (trimStr a.url :: seen)
            (fun k hk => List.mem_cons_of_mem _ hk))

/-- CLAIM C4 (counterexample to the claim as stated).  Two items share
the url u but only the second one's title matches the query a:
deduplicating first keeps the non-matching first item and filtering then
empties the list, while filtering first keeps the matching second item,
so the title filter does not commute with deduplication. -/
theorem counterexample_C4 :
    applyTitleFilter
        (dedupeByUrl
          [Item.mk (strCodes ("i1")) (strCodes ("b")) (strCodes ("u")) [] (some 0) [] none,
           Item.mk (strCodes ("i2")) (strCodes ("a")) (strCodes ("u")) [] (some 0) [] none])
        (strCodes ("a")) ≠
      dedupeByUrl
        (applyTitleFilter
          [Item.mk (strCodes ("i1")) (strCodes ("b")) (strCodes ("u")) [] (some 0) [] none,
           Item.mk (strCodes ("i2")) (strCodes ("a")) (strCodes ("u")) [] (some 0) [] none]
          (strCodes ("a"))) := by
  decide

/-- CLAIM C4 (amended).  The title filter is idempotent.  It does not
commute with URL-deduplication in general: deduplicating and then
filtering always yields a sublist of filtering and then deduplicating,
but the two can differ when items sharing a url key have titles that
match the query differently. -/
theorem claim_C4 (items : List Item) (q : JsStr) :
    applyTitleFilter (applyTitleFilter items q) q = applyTitleFilter items q ∧
    (applyTitleFilter (dedupeByUrl items) q).Sublist
      (dedupeByUrl (applyTitleFilter items q)) := by
  constructor
  · by_cases hq : q = []
    · simp [applyTitleFilter, hq]
    · by_cases h2 : lowerStr (trimStr q) = []
      · simp [applyTitleFilter, hq, h2]
      · simp only [applyTitleFilter, if_neg hq, if_neg h2]
        rw [List.filter_filter]
        simp
  · by_cases hq : q = []
    · simp only [applyTitleFilter, if_pos hq]
      exact List.Sublist.refl _
    · by_cases h2 : lowerStr (trimStr q) = []
      · simp only [applyTitleFilter, if_neg hq, if_pos h2]
        exact List.Sublist.refl _
      · simp only [applyTitleFilter, if_neg hq, if_neg h2]
        exact filter_dedupeGo_sublist (titleMatches (lowerStr (trimStr q))) items []

/-- CLAIM C6.  formatRelativeTime is monotonic: for instants
t1 < t2 <= now, the display bucket of the older instant t1 is never more
recent than that of t2 (unit rank now < minutes < hours < days, larger
counts older within a unit), and the rendered strings are exactly these
buckets. -/
theorem claim_C6 (t1 t2 now : Int) (h12 : t1 < t2) (h2 : t2 ≤ now) :
    notMoreRecent (classifyBucket t1 now) (classifyBucket t2 now) ∧
    formatRelativeTime (.date (some t1)) now = renderBucket (classifyBucket t1 now) ∧
    formatRelativeTime (.date (some t2)) now = renderBucket (classifyBucket t2 now) := by
  refine ⟨?_, rfl, rfl⟩
  unfold notMoreRecent
  simp only [classifyBucket]
  split_ifs <;> simp [bucketRank, bucketCount] <;> omega

theorem claim_C6_witness :
    notMoreRecent (classifyBucket 0 7200000) (classifyBucket 3600000 7200000) :=
  (claim_C6 0 3600000 7200000 (by decide) (by decide)).1

theorem lowerCode_idem (c : Nat) : lowerCode (lowerCode c) = lowerCode c := by
  unfold lowerCode
  by_cases h : 65 ≤ c ∧ c ≤ 90
  · rw [if_pos h, if_neg (by omega)]
  · rw [if_neg h, if_neg h]

theorem isWs_lower (c : Nat) : isWsCode (lowerCode c) = isWsCode c := by
  unfold lowerCode
  by_cases h : 65 ≤ c ∧ c ≤ 90
  · rw [if_pos h]
    have h1 : isWsCode (c + 32) = false := by
      simp [isWsCode]
      omega
    have h2 : isWsCode c = false := by
      simp [isWsCode]
      omega
    rw [h1, h2]
  · rw [if_neg h]

theorem lowerStr_idem (s : JsStr) : lowerStr (lowerStr s) = lowerStr s := by
  unfold lowerStr
  rw [List.map_map]
  congr 1
  funext c
  exact lowerCode_idem c

theorem dropWhile_idem (p : Nat → Bool) (l : JsStr) :
    List.dropWhile p (List.dropWhile p l) = List.dropWhile p l := by
  induction l with
  | nil => rfl
  | cons a as ih =>
    by_cases hpa : p a
    · simp [List.dropWhile_cons, hpa, ih]
    · simp [List.dropWhile_cons, hpa]

theorem dropWhile_append_single (p : Nat → Bool) (x : Nat) (hx : p x = false)
    (l : JsStr) : ∃ t, List.dropWhile p (l ++ [x]) = t ++ [x] := by
  induction l with
  | nil =>
    refine ⟨[], ?_⟩
    simp [List.dropWhile_cons, hx]
  | cons a as ih =>
    by_cases hpa : p a
    · simpa [List.dropWhile_cons, hpa] using ih
    · exact ⟨a :: as, by simp [List.dropWhile_cons, hpa]⟩

theorem dropWhile_trimEnd_fix (s : JsStr) (h : List.dropWhile isWsCode s = s) :
    List.dropWhile isWsCode ((s.reverse.dropWhile isWsCode).reverse) =
      (s.reverse.dropWhile isWsCode).reverse := by
  cases s with
  | nil => rfl
  | cons a as =>
    have ha : isWsCode a = false := by
      rw [List.dropWhile_cons] at h
      by_cases hpa : isWsCode a = true
      · rw [if_pos hpa] at h
        have hlen := congrArg List.length h
        have hle := (List.dropWhile_sublist (l := as) isWsCode).length_le
        simp at hlen
        omega
      · simpa using hpa
    obtain ⟨t, ht⟩ := dropWhile_append_single isWsCode a ha as.reverse
    rw [List.reverse_cons, ht, List.reverse_append]
    simp [List.dropWhile_cons, ha]

theorem trim_idem (s : JsStr) : trimStr (trimStr s) = trimStr s := by
  have hA := dropWhile_idem isWsCode s
  unfold trimStr
  rw [dropWhile_trimEnd_fix (s.dropWhile isWsCode) hA, List.reverse_reverse,
    dropWhile_idem]

theorem lower_comm_dropWhile (s : JsStr) :
    List.dropWhile isWsCode (lowerStr s) = lowerStr (List.dropWhile isWsCode s) := by
  unfold lowerStr
  rw [List.dropWhile_map]
  congr 2
  funext c
  exact isWs_lower c

theorem trim_lower (s : JsStr) : trimStr (lowerStr s) = lowerStr (trimStr s) := by
  have h1 : ∀ X : JsStr, (lowerStr X).reverse = lowerStr X.reverse :=
    fun X => (List.map_reverse lowerCode X).symm
  calc trimStr (lowerStr s)
      = ((lowerStr (s.dropWhile isWsCode)).reverse.dropWhile isWsCode).reverse := by
        unfold trimStr
        rw [lower_comm_dropWhile]
    _ = ((lowerStr (s.dropWhile isWsCode).reverse).dropWhile isWsCode).reverse := by
        rw [h1]
    _ = (lowerStr ((s.dropWhile isWsCode).reverse.dropWhile isWsCode)).reverse := by
        rw [lower_comm_dropWhile]
    _ = lowerStr ((s.dropWhile isWsCode).reverse.dropWhile isWsCode).reverse := by
        rw [h1]
    _ = lowerStr (trimStr s) := rfl

/-- CLAIM C10.  The title filter gives the same result for a query and
for its trimmed, lower-cased form: surrounding whitespace and letter
case of the caller-supplied query never change which items match. -/
theorem claim_C10 (items : List Item) (q : JsStr) :
    applyTitleFilter items q = applyTitleFilter items (lowerStr (trimStr q)) := by
  by_cases hq : q = []
  · subst hq
    rfl
  · have hq2trim : trimStr (lowerStr (trimStr q)) = lowerStr (trimStr q) := by
      rw [trim_lower, trim_idem]
    have hq2low : lowerStr (lowerStr (trimStr q)) = lowerStr (trimStr q) :=
      lowerStr_idem (trimStr q)
    by_cases h2 : lowerStr (trimStr q) = []
    · simp [applyTitleFilter, hq, h2]
    · simp [applyTitleFilter, hq, h2, hq2trim, hq2low]

theorem claim_C9_witness :
    fetchDevelopments [] true ⟨none, [], false⟩ (Except.ok [])
      [⟨[], [], [], [], some (some 0), [], none⟩] 200000000 =
      { items := [], usedMock := true } :=
  claim_C9 [] ⟨none, [], false⟩ (Except.ok [])
    [⟨[], [], [], [], some (some 0), [], none⟩] 200000000 (by decide) (by decide)

end AIDev
